import Mathlib

/-!
Verification of the OctoShare mTLS file-custody server (`src/server.js`).

The development shallowly embeds the four Express route handlers of the
server — upload (`POST /upload`), list (`GET /files`), download
(`GET /download/:filename`) and delete (`DELETE /files/:filename`) — as
pure Lean functions from a request description (peer certificate, target
filename, upload part, filesystem state) to a `RouteResult` recording the
HTTP status, the filesystem calls made, the `[OP]`-tagged `console.log`
audit lines, and the `console.error` lines.

Modelling conventions:
* POSIX paths are lists of segments, each a `List Char`; `joinPath`
  embeds Node's `path.join(UPLOAD_PATH, name)` including its
  normalisation of `.`, `..`, empty segments and repeated `/`.
* `hasDDList` embeds JavaScript's `filename.includes('..')` (a two-dot
  substring test); `hasSepList` tests for the `/` path separator.
* The peer certificate returned by `req.socket.getPeerCertificate()` is
  `Option PeerCert`; `none` also covers the empty object Node returns
  when no certificate was presented, since both fail the
  `clientCert && clientCert.subject` test in the source.
* HTTP statuses mirror the source: 200 success, 400 invalid name,
  401 unauthorized, 404 not found, 500 server-side failure.
* Multer's `diskStorage.filename` callback `${Date.now()}-${file.originalname}`
  is `uploadFilename`, with the epoch-millis timestamp a `Nat` rendered by
  `Nat.repr` (JavaScript prints integral numbers below 2^53 in decimal).
* Multer's disk write can fail: `multerWriteOk` captures the
  deterministic ENOENT/EISDIR cases plus an I/O oracle, and on failure
  the middleware error path answers 500 with the handler never running.
-/

/-- Segment of a POSIX path, as a list of characters. -/
abbrev Seg := List Char

/-- Absolute path, as the list of its segments from the filesystem root. -/
abbrev StorePath := List Seg

/-- Substring test for the two-dot sequence: the embedding of the
JavaScript traversal guard `filename.includes('..')` on a character list. -/
def hasDDList : List Char → Bool
  | [] => false
  | [_] => false
  | a :: b :: rest => (a = '.' && b = '.') || hasDDList (b :: rest)

/-- The two-dot substring test on a string, as applied by the server to
`req.params.filename` and by this development to generated names. -/
def hasDotDot (s : String) : Bool := hasDDList s.data

/-- StorePath-separator test on a character list (POSIX separator `/`). -/
def hasSepList (cs : List Char) : Bool := cs.any (· = '/')

/-- StorePath-separator test on a string. -/
def hasSep (s : String) : Bool := hasSepList s.data

/-- Split a character list into path segments at `/`, the embedding of the
segment decomposition Node's `path.join`/`path.normalize` performs. -/
def splitSegs : List Char → List Seg
  | [] => [[]]
  | c :: rest =>
    if c = '/' then [] :: splitSegs rest
    else
      match splitSegs rest with
      | [] => [[c]]
      | seg :: segs => (c :: seg) :: segs

/-- Resolve a segment list against an already-normalised base path:
empty and `.` segments are dropped, `..` pops the last segment (Node's
`path.normalize` on an absolute path), anything else is appended. -/
def resolveSegs : StorePath → List Seg → StorePath
  | acc, [] => acc
  | acc, s :: rest =>
    if s = ([] : Seg) ∨ s = ['.'] then resolveSegs acc rest
    else if s = ['.', '.'] then resolveSegs acc.dropLast rest
    else resolveSegs (acc ++ [s]) rest

/-- Embedding of `path.join(root, name)` for an absolute, normalised
`root`: split `name` at separators and resolve against `root`. -/
def joinPath (root : StorePath) (name : String) : StorePath :=
  resolveSegs root (splitSegs name.data)

/-- Subject of an X.509 certificate as the server reads it: only the
Common Name field matters; `none` models an absent CN property. -/
structure CertSubject where
  CN : Option String
deriving DecidableEq

/-- Verified peer certificate as returned by `getPeerCertificate()`;
`subject = none` models a certificate object without a subject. -/
structure PeerCert where
  subject : Option CertSubject
deriving DecidableEq

/-- The identity gate every route inlines:
`clientCert && clientCert.subject` is truthy. -/
def hasIdentity : Option PeerCert → Bool
  | none => false
  | some c => c.subject.isSome

/-- The upload route's identifier expression
`clientCert.subject.CN || 'Unknown Client'`: JavaScript `||` replaces
both an absent and an empty-string CN by the default. -/
def uploadIdentifier (s : CertSubject) : String :=
  match s.CN with
  | none => "Unknown Client"
  | some n => if n = "" then "Unknown Client" else n

/-- Template-literal rendering `${clientCert.subject.CN}` used by the
list, download and delete log lines: an absent property prints as
`undefined`, an empty string prints as itself. -/
def jsShowCN : Option String → String
  | none => "undefined"
  | some n => n

/-- Identity extraction contract of §4.1, embedded from the upload
route's inline pattern (presence test plus CN defaulting). -/
structure PeerIdentity where
  present : Bool
  commonName : String
deriving DecidableEq

/-- Derive a `PeerIdentity` from the connection's peer certificate,
following the source's `clientCert && clientCert.subject` presence test
and the upload route's `CN || 'Unknown Client'` defaulting. -/
def extractIdentity : Option PeerCert → PeerIdentity
  | none => ⟨false, ""⟩
  | some c =>
    match c.subject with
    | none => ⟨false, ""⟩
    | some s => ⟨true, uploadIdentifier s⟩

/-- Kind of directory entry present at a path. -/
inductive Entry
  | file
  | dir
deriving DecidableEq

/-- Filesystem state: what entry, if any, each absolute path holds. -/
def FsState := StorePath → Option Entry

/-- Embedding of `fs.existsSync`: true for any entry kind. -/
def existsSync (fs : FsState) (p : StorePath) : Bool := (fs p).isSome

/-- One filesystem call made by a route handler, with the path it
touches: multer's write, `readdirSync`, `existsSync`, the `res.download`
read, `unlinkSync`. -/
inductive FsEvent
  | write (p : StorePath)
  | readDir (p : StorePath)
  | statQuery (p : StorePath)
  | readFile (p : StorePath)
  | unlink (p : StorePath)
deriving DecidableEq

/-- The path an `FsEvent` touches. -/
def FsEvent.path : FsEvent → StorePath
  | .write p => p
  | .readDir p => p
  | .statQuery p => p
  | .readFile p => p
  | .unlink p => p

/-- One `[OP]`-tagged `console.log` line: the operation tag, the client
identifier interpolated into the line, and the target filename (empty
where the line names none). -/
structure AuditRecord where
  operation : String
  identity : String
  target : String
deriving DecidableEq

/-- Observable outcome of one request: HTTP status, filesystem calls in
order, `[OP]`-tagged audit log lines, `console.error` lines, and the
stored name the upload route returns in its JSON body. -/
structure RouteResult where
  status : Nat
  events : List FsEvent
  audits : List AuditRecord
  errors : List String
  storedName : Option String
deriving DecidableEq

/-- Multer's `diskStorage` filename callback:
`${Date.now()}-${file.originalname}`. -/
def uploadFilename (t : Nat) (o : String) : String :=
  Nat.repr t ++ "-" ++ o

/-- Success condition of multer's disk write via
`fs.createWriteStream(path.join(destination, filename))`: the write
fails deterministically when the joined path's parent directory does not
exist (ENOENT — the case for any separator-containing filename in the
flat store) or when the target itself is a directory (EISDIR); `wOk`
models the residual I/O failure modes (disk full, permissions). -/
def multerWriteOk (fs : FsState) (p : StorePath) (wOk : Bool) : Bool :=
  if fs p.dropLast = some Entry.dir then
    if fs p = some Entry.dir then false else wOk
  else false

/-- Embedding of `POST /upload`. The multer middleware runs before the
handler: when the request carries a `secureFile` part (modelled as the
pair of the epoch-millis timestamp and the claimed original name) it
attempts the write to `path.join(UPLOAD_PATH, uploadFilename t o)`
before any identity check. If the write fails, multer passes the error
to Express, which answers 500 with the handler never running: no file is
created, no log line and no JSON body is produced. Only on a successful
write does the handler test `req.file` and the client certificate. -/
def uploadRoute (root : StorePath) (cert : Option PeerCert)
    (filePart : Option (Nat × String)) (fs : FsState) (wOk : Bool) : RouteResult :=
  match filePart with
  | none => { status := 400, events := [], audits := [], errors := [], storedName := none }
  | some (t, o) =>
    let fname := uploadFilename t o
    let p := joinPath root fname
    if multerWriteOk fs p wOk then
      match cert with
      | some c =>
        match c.subject with
        | some s =>
          { status := 200, events := [FsEvent.write p],
            audits := [⟨"UPLOAD", uploadIdentifier s, ""⟩],
            errors := [], storedName := some fname }
        | none =>
          { status := 401, events := [FsEvent.write p], audits := [],
            errors := [], storedName := none }
      | none =>
        { status := 401, events := [FsEvent.write p], audits := [],
          errors := [], storedName := none }
    else
      { status := 500, events := [], audits := [], errors := [], storedName := none }

/-- Embedding of `GET /files`: certificate gate first, then
`readdirSync(UPLOAD_PATH)`, which succeeds exactly when the root is a
readable directory and otherwise reaches the `catch` (500 plus a
`console.error` line). -/
def listRoute (root : StorePath) (cert : Option PeerCert) (fs : FsState) : RouteResult :=
  match cert with
  | none =>
    { status := 401, events := [], audits := [], errors := [], storedName := none }
  | some c =>
    match c.subject with
    | none =>
      { status := 401, events := [], audits := [], errors := [], storedName := none }
    | some s =>
      if fs root = some Entry.dir then
        { status := 200, events := [FsEvent.readDir root],
          audits := [⟨"LIST", jsShowCN s.CN, ""⟩], errors := [], storedName := none }
      else
        { status := 500, events := [FsEvent.readDir root], audits := [],
          errors := ["Error reading upload directory:"], storedName := none }

/-- Embedding of `GET /download/:filename`: the `includes('..')` guard
runs first (400, no filesystem call), then `path.join`, then the
certificate gate (401, no filesystem call), then `existsSync`; when the
entry exists the `[DOWNLOAD]` line is logged and `res.download` streams
a regular file (200) or fails on any other entry kind (500 via the
error callback). -/
def downloadRoute (root : StorePath) (fname : String) (cert : Option PeerCert)
    (fs : FsState) : RouteResult :=
  if hasDotDot fname then
    { status := 400, events := [], audits := [], errors := [], storedName := none }
  else
    let p := joinPath root fname
    match cert with
    | none =>
      { status := 401, events := [], audits := [], errors := [], storedName := none }
    | some c =>
      match c.subject with
      | none =>
        { status := 401, events := [], audits := [], errors := [], storedName := none }
      | some s =>
        if fs p = none then
          { status := 404, events := [FsEvent.statQuery p], audits := [],
            errors := [], storedName := none }
        else if fs p = some Entry.file then
          { status := 200, events := [FsEvent.statQuery p, FsEvent.readFile p],
            audits := [⟨"DOWNLOAD", jsShowCN s.CN, fname⟩],
            errors := [], storedName := none }
        else
          { status := 500, events := [FsEvent.statQuery p, FsEvent.readFile p],
            audits := [⟨"DOWNLOAD", jsShowCN s.CN, fname⟩],
            errors := [], storedName := none }

/-- Embedding of `DELETE /files/:filename`: the `includes('..')` guard
runs first, then `path.join`, then the certificate gate, then
`existsSync`; on an existing entry `unlinkSync` either succeeds
(modelled by the oracle `uOk`, 200 plus the `[DELETE]` line) or throws
(500 plus a `console.error` line, no audit line since the log follows
the unlink). -/
def deleteRoute (root : StorePath) (fname : String) (cert : Option PeerCert)
    (fs : FsState) (uOk : Bool) : RouteResult :=
  if hasDotDot fname then
    { status := 400, events := [], audits := [], errors := [], storedName := none }
  else
    let p := joinPath root fname
    match cert with
    | none =>
      { status := 401, events := [], audits := [], errors := [], storedName := none }
    | some c =>
      match c.subject with
      | none =>
        { status := 401, events := [], audits := [], errors := [], storedName := none }
      | some s =>
        if existsSync fs p then
          if uOk then
            { status := 200, events := [FsEvent.statQuery p, FsEvent.unlink p],
              audits := [⟨"DELETE", jsShowCN s.CN, fname⟩],
              errors := [], storedName := none }
          else
            { status := 500, events := [FsEvent.statQuery p, FsEvent.unlink p],
              audits := [], errors := ["Error deleting file:"], storedName := none }
        else
          { status := 404, events := [FsEvent.statQuery p], audits := [],
            errors := [], storedName := none }

/-- Fuel-free decimal rendering of a natural number, most significant
digit first; proved below to agree with core's `Nat.repr`. -/
def decDigits (n : Nat) : List Char :=
  if n < 10 then [Nat.digitChar n]
  else decDigits (n / 10) ++ [Nat.digitChar (n % 10)]
decreasing_by exact Nat.div_lt_self (by omega) (by omega)

/-- Decimal value of a digit list, inverse of `decDigits`. -/
def decValue (cs : List Char) : Nat :=
  cs.foldl (fun a c => 10 * a + (c.toNat - 48)) 0

/-- A certificate with subject CN `client-a`, used as a concrete
authenticated caller in witnesses. -/
def certA : Option PeerCert := some ⟨some ⟨some "client-a"⟩⟩

/-- A certificate whose subject carries no CN property. -/
def certNoCN : Option PeerCert := some ⟨some ⟨none⟩⟩

/-- A concrete store root `/u` for witnesses. -/
def rootU : StorePath := [['u']]

/-- Filesystem in which only the root directory `/u` exists. -/
def fsRootOnly : FsState :=
  fun p => if p = rootU then some Entry.dir else none

/-- Filesystem with the root directory and a regular file `/u/a`. -/
def fsFileA : FsState :=
  fun p =>
    if p = rootU then some Entry.dir
    else if p = [['u'], ['a']] then some Entry.file
    else none

/-- Filesystem with the root directory and a subdirectory `/u/d`. -/
def fsDirD : FsState :=
  fun p =>
    if p = rootU then some Entry.dir
    else if p = [['u'], ['d']] then some Entry.dir
    else none

example : joinPath rootU "a/b" = [['u'], ['a'], ['b']] := by decide
example : joinPath rootU "" = rootU := by decide
example : joinPath rootU "." = rootU := by decide
example : hasDotDot "../../etc/passwd" = true := by decide
example : hasDotDot "a..b" = true := by decide
example : hasDotDot "a.b" = false := by decide
example : uploadFilename 1700000000000 "report.txt" = "1700000000000-report.txt" := by decide
example : (downloadRoute rootU "../x" certA fsFileA).status = 400 := by decide
example : (downloadRoute rootU "a" certA fsFileA).status = 200 := by decide
example : (downloadRoute rootU "a" none fsFileA).status = 401 := by decide
example : (deleteRoute rootU "a" certA fsFileA true).status = 200 := by decide
example : (uploadRoute rootU none (some (5, "x.txt")) fsRootOnly true).status = 401 := by
  decide
example : (uploadRoute rootU none (some (5, "x.txt")) fsRootOnly true).events ≠ [] := by
  decide
example : (uploadRoute rootU certA (some (5, "a/b")) fsRootOnly true).status = 500 := by
  decide
example : (uploadRoute rootU certA (some (5, "a/b")) fsRootOnly true).events = [] := by
  decide

/-- Helper: prepending a non-dot character does not create a two-dot
substring. -/
theorem hasDDList_cons_of_ne {c : Char} (l : List Char) (hc : c ≠ '.') :
    hasDDList (c :: l) = hasDDList l := by
  cases l with
  | nil => simp [hasDDList]
  | cons d r => simp [hasDDList, hc]

/-- Helper: a two-dot-free list stays two-dot-free after dropping its head. -/
theorem hasDDList_tail {c : Char} {l : List Char} (h : hasDDList (c :: l) = false) :
    hasDDList l = false := by
  cases l with
  | nil => rfl
  | cons d r =>
    simp only [hasDDList, Bool.or_eq_false_iff] at h
    exact h.2

/-- Helper: a prefix whose characters are all non-dots does not affect
the two-dot substring test. -/
theorem hasDDList_append_of (l1 l2 : List Char) (h : ∀ c ∈ l1, c ≠ '.') :
    hasDDList (l1 ++ l2) = hasDDList l2 := by
  induction l1 with
  | nil => rfl
  | cons c t ih =>
    have hc : c ≠ '.' := h c (List.mem_cons_self c t)
    have ht : ∀ c ∈ t, c ≠ '.' := fun d hd => h d (List.mem_cons_of_mem c hd)
    calc hasDDList ((c :: t) ++ l2) = hasDDList (t ++ l2) :=
          hasDDList_cons_of_ne (t ++ l2) hc
      _ = hasDDList l2 := ih ht

/-- Helper: `splitSegs` always returns at least one segment. -/
theorem splitSegs_ne_nil (cs : List Char) : splitSegs cs ≠ [] := by
  cases cs with
  | nil => simp [splitSegs]
  | cons c rest =>
    simp only [splitSegs]
    split
    · simp
    · cases splitSegs rest <;> simp

/-- Key sanitizer fact: if a character list passes the two-dot substring
test, every path segment it splits into also passes it — in particular
no segment is the parent-directory segment `..`. -/
theorem splitSegs_no_dd (cs : List Char) (h : hasDDList cs = false) :
    ∀ seg ∈ splitSegs cs, hasDDList seg = false := by
  induction cs with
  | nil =>
    intro seg hs
    simp [splitSegs] at hs
    subst hs
    rfl
  | cons c rest ih =>
    intro seg hs
    have hrest : hasDDList rest = false := hasDDList_tail h
    simp only [splitSegs] at hs
    by_cases hc : c = '/'
    · simp only [if_pos hc] at hs
      rcases List.mem_cons.1 hs with h1 | h2
      · subst h1; rfl
      · exact ih hrest seg h2
    · simp only [if_neg hc] at hs
      cases hsp : splitSegs rest with
      | nil => exact absurd hsp (splitSegs_ne_nil rest)
      | cons s0 segs =>
        rw [hsp] at hs
        rcases List.mem_cons.1 hs with h1 | h2
        · subst h1
          cases rest with
          | nil =>
            simp [splitSegs] at hsp
            rw [hsp.1]
            simp [hasDDList]
          | cons r t =>
            by_cases hr : r = '/'
            · simp only [splitSegs, if_pos hr] at hsp
              have hs0 : s0 = [] := (List.cons.injEq _ _ _ _ ▸ hsp).1.symm ▸ rfl
              rw [List.cons.injEq] at hsp
              rw [← hsp.1]
              simp [hasDDList]
            · have hne : ¬(c = '.' ∧ r = '.') := by
                by_contra hcr
                simp [hasDDList, hcr.1, hcr.2] at h
              have hmem : s0 ∈ splitSegs (r :: t) := by
                rw [hsp]; exact List.mem_cons_self s0 segs
              have hs0dd : hasDDList s0 = false := ih hrest s0 hmem
              have hhead : ∃ s1, s0 = r :: s1 := by
                simp only [splitSegs, if_neg hr] at hsp
                cases hsp2 : splitSegs t with
                | nil => exact absurd hsp2 (splitSegs_ne_nil t)
                | cons s1 segs1 =>
                  rw [hsp2] at hsp
                  rw [List.cons.injEq] at hsp
                  exact ⟨s1, hsp.1.symm⟩
              obtain ⟨s1, rfl⟩ := hhead
              simp only [hasDDList, Bool.or_eq_false_iff]
              constructor
              · by_contra hb
                simp only [Bool.and_eq_false_iff, decide_eq_false_iff_not, not_or] at hb
                push_neg at hb
                rcases Decidable.em (c = '.') with hcd | hcd
                · rcases Decidable.em (r = '.') with hrd | hrd
                  · exact hne ⟨hcd, hrd⟩
                  · simp [hcd, hrd] at hb
                · simp [hcd] at hb
              · exact hs0dd
        · exact ih hrest seg (by rw [hsp]; exact List.mem_cons_of_mem s0 h2)

/-- Resolving segments none of which is `..` never leaves the base path:
the base is a prefix of the result. -/
theorem resolveSegs_isBelow (l : List Seg) :
    ∀ acc : StorePath, (∀ s ∈ l, s ≠ ['.', '.']) → acc <+: resolveSegs acc l := by
  induction l with
  | nil => intro acc _; exact List.prefix_refl acc
  | cons s rest ih =>
    intro acc h
    have hs : s ≠ ['.', '.'] := h s (List.mem_cons_self s rest)
    have hrest : ∀ x ∈ rest, x ≠ ['.', '.'] :=
      fun x hx => h x (List.mem_cons_of_mem s hx)
    by_cases h1 : s = ([] : Seg) ∨ s = ['.']
    · simp only [resolveSegs, if_pos h1]
      exact ih acc hrest
    · simp only [resolveSegs, if_neg h1, if_neg hs]
      exact (List.prefix_append acc [s]).trans (ih (acc ++ [s]) hrest)

/-- Traversal safety of `path.join`: joining a name free of the two-dot
sequence onto the store root yields a path that stays below the root. -/
theorem joinPath_isBelow (root : StorePath) (name : String)
    (h : hasDotDot name = false) : root <+: joinPath root name := by
  apply resolveSegs_isBelow
  intro s hs
  intro hdd
  have := splitSegs_no_dd name.data h s hs
  rw [hdd] at this
  simp [hasDDList] at this

/-- Helper: `Nat.digitChar` of a value below ten is a decimal digit
character. -/
theorem digitChar_isDigit {m : Nat} (h : m < 10) :
    (Nat.digitChar m).isDigit = true := by
  interval_cases m <;> decide

/-- Helper: the numeric value of a decimal digit character produced by
`Nat.digitChar`. -/
theorem digitChar_toNat {m : Nat} (h : m < 10) :
    (Nat.digitChar m).toNat - 48 = m := by
  interval_cases m <;> decide

/-- Characters of the fuel-free decimal rendering are decimal digits. -/
theorem decDigits_isDigit (n : Nat) : ∀ c ∈ decDigits n, c.isDigit = true := by
  induction n using Nat.strong_induction_on with
  | _ n ih =>
    intro c hc
    rw [decDigits] at hc
    split at hc
    · rw [List.mem_singleton] at hc
      subst hc
      exact digitChar_isDigit (by omega)
    · rcases List.mem_append.1 hc with h1 | h2
      · exact ih (n / 10) (Nat.div_lt_self (by omega) (by omega)) c h1
      · rw [List.mem_singleton] at h2
        subst h2
        exact digitChar_isDigit (Nat.mod_lt n (by omega))

/-- Fuel bridge: core's `Nat.toDigitsCore` at base ten agrees with the
fuel-free rendering whenever the fuel exceeds the number. -/
theorem toDigitsCore_eq_decDigits (fuel : Nat) :
    ∀ n ds, n < fuel → Nat.toDigitsCore 10 fuel n ds = decDigits n ++ ds := by
  induction fuel with
  | zero => intro n ds h; omega
  | succ f ih =>
    intro n ds h
    simp only [Nat.toDigitsCore]
    by_cases h0 : n / 10 = 0
    · have hn : n < 10 := (Nat.div_eq_zero_iff (by omega)).1 h0
      rw [if_pos h0, decDigits]
      rw [if_pos hn, Nat.mod_eq_of_lt hn]
      rfl
    · have hn : ¬ n < 10 := by
        intro hlt
        exact h0 ((Nat.div_eq_zero_iff (by omega)).2 hlt)
      have hf : n / 10 < f := by
        have h1 : n / 10 < n := Nat.div_lt_self (by omega) (by omega)
        omega
      rw [if_neg h0, decDigits]
      rw [if_neg hn, ih (n / 10) _ hf]
      simp [List.append_assoc]

/-- Core's decimal rendering `Nat.repr` equals the fuel-free one. -/
theorem repr_data_eq_decDigits (n : Nat) : (Nat.repr n).data = decDigits n := by
  show (Nat.toDigits 10 n).asString.data = decDigits n
  rw [Nat.toDigits, toDigitsCore_eq_decDigits (n + 1) n [] (Nat.lt_succ_self n)]
  simp [List.asString]

/-- Folding one more digit onto a decimal value. -/
theorem decValue_append_digit (cs : List Char) (c : Char) :
    decValue (cs ++ [c]) = 10 * decValue cs + (c.toNat - 48) := by
  simp [decValue, List.foldl_append]

/-- The decimal value recovers the number from its rendering. -/
theorem decValue_decDigits (n : Nat) : decValue (decDigits n) = n := by
  induction n using Nat.strong_induction_on with
  | _ n ih =>
    rw [decDigits]
    split
    · simp only [decValue, List.foldl_cons, List.foldl_nil]
      rw [digitChar_toNat (by omega)]
      omega
    · rw [decValue_append_digit]
      rw [ih (n / 10) (Nat.div_lt_self (by omega) (by omega))]
      rw [digitChar_toNat (Nat.mod_lt n (by omega))]
      omega

/-- The fuel-free decimal rendering is injective. -/
theorem decDigits_inj {m n : Nat} (h : decDigits m = decDigits n) : m = n := by
  have := congrArg decValue h
  rwa [decValue_decDigits, decValue_decDigits] at this

/-- A decimal digit character is not a dash. -/
theorem isDigit_ne_dash {c : Char} (h : c.isDigit = true) : c ≠ '-' := by
  intro hc; subst hc; simp at h

/-- A decimal digit character is not a dot. -/
theorem isDigit_ne_dot {c : Char} (h : c.isDigit = true) : c ≠ '.' := by
  intro hc; subst hc; simp at h

/-- A decimal digit character is not a path separator. -/
theorem isDigit_ne_slash {c : Char} (h : c.isDigit = true) : c ≠ '/' := by
  intro hc; subst hc; simp at h

/-- Splitting a character list at a distinguished character absent from
both prefixes determines the decomposition uniquely. -/
theorem append_sep_cancel {sep : Char} :
    ∀ {a a' b b' : List Char}, (∀ c ∈ a, c ≠ sep) → (∀ c ∈ a', c ≠ sep) →
      a ++ sep :: b = a' ++ sep :: b' → a = a' ∧ b = b' := by
  intro a
  induction a with
  | nil =>
    intro a' b b' _ ha' h
    cases a' with
    | nil => simpa using h
    | cons x t' =>
      exfalso
      have hx : x = sep := by
        have := congrArg List.head? h
        simpa using this.symm
      exact ha' x (List.mem_cons_self x t') hx
  | cons x t ih =>
    intro a' b b' ha ha' h
    cases a' with
    | nil =>
      exfalso
      have hx : x = sep := by
        have := congrArg List.head? h
        simpa using this
      exact ha x (List.mem_cons_self x t) hx
    | cons y t' =>
      rw [List.cons_append, List.cons_append, List.cons.injEq] at h
      have ht : ∀ c ∈ t, c ≠ sep := fun c hc => ha c (List.mem_cons_of_mem x hc)
      have ht' : ∀ c ∈ t', c ≠ sep := fun c hc => ha' c (List.mem_cons_of_mem y hc)
      obtain ⟨h1, h2⟩ := ih ht ht' h.2
      exact ⟨by rw [h.1, h1], h2⟩

/-- Character decomposition of a generated stored name: the decimal
timestamp, a dash, then the raw original name. -/
theorem uploadFilename_data (t : Nat) (o : String) :
    (uploadFilename t o).data = decDigits t ++ '-' :: o.data := by
  show ((Nat.repr t ++ "-") ++ o).data = _
  rw [String.data_append, String.data_append, repr_data_eq_decDigits]
  simp

/-- The stored-name generator is injective on (timestamp, originalName)
pairs: the digit-only timestamp block ends at the first dash, so the
decomposition is unique. -/
theorem uploadFilename_inj {t1 t2 : Nat} {o1 o2 : String}
    (h : uploadFilename t1 o1 = uploadFilename t2 o2) : t1 = t2 ∧ o1 = o2 := by
  have hd := congrArg String.data h
  rw [uploadFilename_data, uploadFilename_data] at hd
  have h1 : ∀ c ∈ decDigits t1, c ≠ '-' :=
    fun c hc => isDigit_ne_dash (decDigits_isDigit t1 c hc)
  have h2 : ∀ c ∈ decDigits t2, c ≠ '-' :=
    fun c hc => isDigit_ne_dash (decDigits_isDigit t2 c hc)
  obtain ⟨hts, hos⟩ := append_sep_cancel h1 h2 hd
  exact ⟨decDigits_inj hts, String.ext hos⟩

/-- The generated stored name contains the two-dot sequence exactly when
the caller-supplied original name does: the timestamp block and the dash
cannot contribute one. -/
theorem uploadFilename_hasDotDot (t : Nat) (o : String) :
    hasDotDot (uploadFilename t o) = hasDotDot o := by
  show hasDDList (uploadFilename t o).data = hasDDList o.data
  rw [uploadFilename_data]
  rw [hasDDList_append_of _ _
    (fun c hc => isDigit_ne_dot (decDigits_isDigit t c hc))]
  exact hasDDList_cons_of_ne o.data (by decide)

/-- The generated stored name contains a path separator exactly when the
caller-supplied original name does. -/
theorem uploadFilename_hasSep (t : Nat) (o : String) :
    hasSep (uploadFilename t o) = hasSep o := by
  show hasSepList (uploadFilename t o).data = hasSepList o.data
  rw [uploadFilename_data]
  simp only [hasSepList, List.any_append, List.any_cons]
  have : (decDigits t).any (· = '/') = false := by
    rw [List.any_eq_false]
    intro c hc
    simpa using isDigit_ne_slash (decDigits_isDigit t c hc)
  simp [this]

/-- Helper: every filesystem call of the download route touches the
joined target path. -/
theorem download_events_path (root : StorePath) (fname : String)
    (cert : Option PeerCert) (fs : FsState) :
    ∀ e ∈ (downloadRoute root fname cert fs).events,
      FsEvent.path e = joinPath root fname := by
  intro e he
  simp only [downloadRoute] at he
  split at he
  · simp at he
  · cases cert with
    | none => simp at he
    | some c =>
      cases hs : c.subject with
      | none => simp [hs] at he
      | some s =>
        simp only [hs] at he
        split at he
        · simp at he
          subst he
          rfl
        · split at he
          · simp at he
            rcases he with rfl | rfl <;> rfl
          · simp at he
            rcases he with rfl | rfl <;> rfl

/-- Helper: every filesystem call of the delete route touches the
joined target path. -/
theorem delete_events_path (root : StorePath) (fname : String)
    (cert : Option PeerCert) (fs : FsState) (uOk : Bool) :
    ∀ e ∈ (deleteRoute root fname cert fs uOk).events,
      FsEvent.path e = joinPath root fname := by
  intro e he
  simp only [deleteRoute] at he
  split at he
  · simp at he
  · cases cert with
    | none => simp at he
    | some c =>
      cases hs : c.subject with
      | none => simp [hs] at he
      | some s =>
        simp only [hs] at he
        split at he
        · split at he
          · simp at he
            rcases he with rfl | rfl <;> rfl
          · simp at he
            rcases he with rfl | rfl <;> rfl
        · simp at he
          subst he
          rfl

/-- Helper: every filesystem call of the list route touches the store
root itself. -/
theorem list_events_path (root : StorePath) (cert : Option PeerCert) (fs : FsState) :
    ∀ e ∈ (listRoute root cert fs).events, FsEvent.path e = root := by
  intro e he
  simp only [listRoute] at he
  cases cert with
  | none => simp at he
  | some c =>
    cases hs : c.subject with
    | none => simp [hs] at he
    | some s =>
      simp only [hs] at he
      split at he <;> (simp at he; subst he; rfl)

/-- C3. A target name containing the two-dot parent-directory token is
rejected by `GET /download/:filename` and `DELETE /files/:filename` with
status 400 (InvalidName) for every identity, and the rejection makes no
filesystem call. -/
theorem C3_traversal_rejected (root : StorePath) (fname : String)
    (cert : Option PeerCert) (fs : FsState) (uOk : Bool)
    (h : hasDotDot fname = true) :
    (downloadRoute root fname cert fs).status = 400 ∧
    (downloadRoute root fname cert fs).events = [] ∧
    (deleteRoute root fname cert fs uOk).status = 400 ∧
    (deleteRoute root fname cert fs uOk).events = [] := by
  simp [downloadRoute, deleteRoute, h]

/-- Witness for C3 at the spec's own example name. -/
theorem C3_traversal_rejected_witness :
    (downloadRoute rootU "../../etc/passwd" certA fsFileA).status = 400 ∧
    (downloadRoute rootU "../../etc/passwd" certA fsFileA).events = [] ∧
    (deleteRoute rootU "../../etc/passwd" certA fsFileA true).status = 400 ∧
    (deleteRoute rootU "../../etc/passwd" certA fsFileA true).events = [] :=
  C3_traversal_rejected rootU "../../etc/passwd" certA fsFileA true (by decide)

/-- C4. Every filesystem path the download, delete or list route reads,
streams, probes or removes lies below the store root: the root's segment
list is a prefix of the accessed path, for every caller-supplied name
and every identity. -/
theorem C4_no_escape (root : StorePath) (fname : String)
    (cert : Option PeerCert) (fs : FsState) (uOk : Bool) :
    (∀ e ∈ (downloadRoute root fname cert fs).events, root <+: FsEvent.path e) ∧
    (∀ e ∈ (deleteRoute root fname cert fs uOk).events, root <+: FsEvent.path e) ∧
    (∀ e ∈ (listRoute root cert fs).events, root <+: FsEvent.path e) := by
  refine ⟨?_, ?_, ?_⟩
  · intro e he
    rcases Bool.eq_false_or_eq_true (hasDotDot fname) with h | h
    · simp [downloadRoute, h] at he
    · rw [download_events_path root fname cert fs e he]
      exact joinPath_isBelow root fname h
  · intro e he
    rcases Bool.eq_false_or_eq_true (hasDotDot fname) with h | h
    · simp [deleteRoute, h] at he
    · rw [delete_events_path root fname cert fs uOk e he]
      exact joinPath_isBelow root fname h
  · intro e he
    rw [list_events_path root cert fs e he]

/-- Witness for C4: the download of `/u/a` by an authenticated caller
probes a path below the root `/u`. -/
theorem C4_no_escape_witness :
    rootU <+: FsEvent.path (FsEvent.statQuery [['u'], ['a']]) :=
  (C4_no_escape rootU "a" certA fsFileA true).1
    (FsEvent.statQuery [['u'], ['a']]) (by decide)

/-- C6. The stored-name generator is injective on (timestamp,
originalName) pairs: any sequence of puts with pairwise distinct pairs
yields pairwise distinct stored names. -/
theorem C6_naming_injective (l : List (Nat × String))
    (h : l.Pairwise (fun a b => a ≠ b)) :
    (l.map fun p => uploadFilename p.1 p.2).Pairwise (fun a b => a ≠ b) := by
  refine List.pairwise_map.2 (h.imp ?_)
  intro a b hne heq
  obtain ⟨h1, h2⟩ := uploadFilename_inj heq
  exact hne (Prod.ext h1 h2)

/-- Witness for C6 on three concrete puts with distinct pairs. -/
theorem C6_naming_injective_witness :
    (([(1, "a"), (1, "b"), (2, "a")] : List (Nat × String)).map
      fun p => uploadFilename p.1 p.2).Pairwise (fun a b => a ≠ b) :=
  C6_naming_injective [(1, "a"), (1, "b"), (2, "a")] (by decide)

/-- Helper: a name free of the two-dot sequence is never answered with
status 400 by the download route. -/
theorem download_not_400 (root : StorePath) (fname : String)
    (cert : Option PeerCert) (fs : FsState) (h : hasDotDot fname = false) :
    (downloadRoute root fname cert fs).status ≠ 400 := by
  simp only [downloadRoute, h, Bool.false_eq_true, if_false]
  cases cert with
  | none => simp
  | some c =>
    cases hs : c.subject with
    | none => simp [hs]
    | some s =>
      simp only [hs]
      split
      · simp
      · split <;> simp

/-- Helper: a name free of the two-dot sequence is never answered with
status 400 by the delete route. -/
theorem delete_not_400 (root : StorePath) (fname : String)
    (cert : Option PeerCert) (fs : FsState) (uOk : Bool)
    (h : hasDotDot fname = false) :
    (deleteRoute root fname cert fs uOk).status ≠ 400 := by
  simp only [deleteRoute, h, Bool.false_eq_true, if_false]
  cases cert with
  | none => simp
  | some c =>
    cases hs : c.subject with
    | none => simp [hs]
    | some s =>
      simp only [hs]
      split
      · split <;> simp
      · simp

/-- C9 counterexample. The empty target name is not rejected with
InvalidName: with the root directory present, the authenticated download
of the empty name joins to the root itself, probes the filesystem, and
fails with 500 instead of 400. -/
theorem C9_empty_name_counterexample :
    (downloadRoute rootU "" certA fsRootOnly).status = 500 ∧
    (downloadRoute rootU "" certA fsRootOnly).status ≠ 400 ∧
    (downloadRoute rootU "" certA fsRootOnly).events ≠ [] ∧
    joinPath rootU "" = rootU := by
  decide

/-- C9 as amended. The download and delete routes reject with
InvalidName (400) exactly the target names containing the two-dot
sequence; in particular the empty name and names resolving to the root
itself are not rejected. -/
theorem C9_reject_iff (root : StorePath) (fname : String)
    (cert : Option PeerCert) (fs : FsState) (uOk : Bool) :
    ((downloadRoute root fname cert fs).status = 400 ↔ hasDotDot fname = true) ∧
    ((deleteRoute root fname cert fs uOk).status = 400 ↔ hasDotDot fname = true) := by
  rcases Bool.eq_false_or_eq_true (hasDotDot fname) with hdd | hdd
  · constructor
    · simp [downloadRoute, hdd]
    · simp [deleteRoute, hdd]
  · constructor
    · simp only [hdd, Bool.false_eq_true, iff_false]
      exact download_not_400 root fname cert fs hdd
    · simp only [hdd, Bool.false_eq_true, iff_false]
      exact delete_not_400 root fname cert fs uOk hdd

/-- C10. Every non-empty name free of the two-dot sequence passes the
validity check of download and delete (no 400), even when it contains
path separators; an authenticated request then probes exactly the joined
path `root/name`, and a separator-containing name resolves into a
subdirectory of the root. -/
theorem C10_subdir_names_pass (root : StorePath) (fname : String)
    (cert : Option PeerCert) (fs : FsState) (uOk : Bool)
    (hne : fname ≠ "") (h2 : hasDotDot fname = false) :
    (downloadRoute root fname cert fs).status ≠ 400 ∧
    (deleteRoute root fname cert fs uOk).status ≠ 400 ∧
    (hasIdentity cert = true →
      (downloadRoute root fname cert fs).events.head? =
        some (FsEvent.statQuery (joinPath root fname)) ∧
      (deleteRoute root fname cert fs uOk).events.head? =
        some (FsEvent.statQuery (joinPath root fname))) ∧
    joinPath root "sub/data.bin" =
      root ++ [['s', 'u', 'b'], ['d', 'a', 't', 'a', '.', 'b', 'i', 'n']] := by
  refine ⟨download_not_400 root fname cert fs h2,
    delete_not_400 root fname cert fs uOk h2, ?_, ?_⟩
  · intro hid
    cases cert with
    | none => simp [hasIdentity] at hid
    | some c =>
      cases hs : c.subject with
      | none => simp [hasIdentity, hs] at hid
      | some s =>
        constructor
        · simp only [downloadRoute, h2, Bool.false_eq_true, if_false, hs]
          split
          · simp
          · split <;> simp
        · simp only [deleteRoute, h2, Bool.false_eq_true, if_false, hs]
          split
          · split <;> simp
          · simp
  · have hsegs : splitSegs ("sub/data.bin".data) =
        [['s', 'u', 'b'], ['d', 'a', 't', 'a', '.', 'b', 'i', 'n']] := by decide
    show resolveSegs root (splitSegs ("sub/data.bin".data)) = _
    rw [hsegs]
    simp [resolveSegs]

/-- Witness for C10: the name `sub/data.bin` with a separator passes the
check and is probed at `/u/sub/data.bin`. -/
theorem C10_subdir_names_pass_witness :
    (downloadRoute rootU "sub/data.bin" certA fsRootOnly).status ≠ 400 ∧
    (deleteRoute rootU "sub/data.bin" certA fsRootOnly true).status ≠ 400 ∧
    (hasIdentity certA = true →
      (downloadRoute rootU "sub/data.bin" certA fsRootOnly).events.head? =
        some (FsEvent.statQuery (joinPath rootU "sub/data.bin")) ∧
      (deleteRoute rootU "sub/data.bin" certA fsRootOnly true).events.head? =
        some (FsEvent.statQuery (joinPath rootU "sub/data.bin"))) ∧
    joinPath rootU "sub/data.bin" =
      rootU ++ [['s', 'u', 'b'], ['d', 'a', 't', 'a', '.', 'b', 'i', 'n']] :=
  C10_subdir_names_pass rootU "sub/data.bin" certA fsRootOnly true
    (by decide) (by decide)

/-- C1 counterexample. A successful authenticated Put with original name
`../../x` yields the stored name `5-../../x`, which contains both the
two-dot sequence and path separators. The multer write genuinely
succeeds at this input: the joined path `uploads/5-../../x` normalises
back into the root (the `5-..` segment is popped by the following `..`),
so the file lands at `/u/x` with the root as its existing parent — the
Store prefixes a timestamp but embeds the raw original name verbatim. -/
theorem C1_counterexample :
    (uploadRoute rootU certA (some (5, "../../x")) fsRootOnly true).status = 200 ∧
    (uploadRoute rootU certA (some (5, "../../x")) fsRootOnly true).storedName =
      some "5-../../x" ∧
    hasDotDot "5-../../x" = true ∧
    hasSep "5-../../x" = true ∧
    (uploadRoute rootU certA (some (5, "../../x")) fsRootOnly true).events =
      [FsEvent.write [['u'], ['x']]] := by
  decide

/-- C1 as amended. For every successful Put the stored name is the
timestamp, a dash, and the caller-supplied original name verbatim; it is
free of path separators and of the two-dot sequence exactly when the
original name is — the timestamp prefix and the dash can never
contribute either. -/
theorem C1_storedName_safety (root : StorePath) (cert : Option PeerCert)
    (t : Nat) (o : String) (fs : FsState) (wOk : Bool)
    (h : (uploadRoute root cert (some (t, o)) fs wOk).status = 200) :
    (uploadRoute root cert (some (t, o)) fs wOk).storedName =
      some (uploadFilename t o) ∧
    hasDotDot (uploadFilename t o) = hasDotDot o ∧
    hasSep (uploadFilename t o) = hasSep o := by
  refine ⟨?_, uploadFilename_hasDotDot t o, uploadFilename_hasSep t o⟩
  rcases Bool.eq_false_or_eq_true
      (multerWriteOk fs (joinPath root (uploadFilename t o)) wOk) with hw | hw
  · cases cert with
    | none => simp [uploadRoute, hw] at h
    | some c =>
      cases hs : c.subject with
      | none => simp [uploadRoute, hw, hs] at h
      | some s => simp [uploadRoute, hw, hs]
  · simp [uploadRoute, hw] at h

/-- Witness for the amended C1 at a benign original name. -/
theorem C1_storedName_safety_witness :
    (uploadRoute rootU certA (some (5, "report.txt")) fsRootOnly true).storedName =
      some (uploadFilename 5 "report.txt") ∧
    hasDotDot (uploadFilename 5 "report.txt") = hasDotDot "report.txt" ∧
    hasSep (uploadFilename 5 "report.txt") = hasSep "report.txt" :=
  C1_storedName_safety rootU certA 5 "report.txt" fsRootOnly true (by decide)

/-- C2 counterexample. An upload request with no client certificate is
answered 401 Unauthorized, yet the multer storage middleware has already
written the file to the store before the identity check runs: the
request performs a filesystem mutation. -/
theorem C2_counterexample :
    (uploadRoute rootU none (some (5, "report.txt")) fsRootOnly true).status = 401 ∧
    (uploadRoute rootU none (some (5, "report.txt")) fsRootOnly true).events =
      [FsEvent.write [['u'],
        ['5', '-', 'r', 'e', 'p', 'o', 'r', 't', '.', 't', 'x', 't']]] ∧
    (uploadRoute rootU none (some (5, "report.txt")) fsRootOnly true).events ≠ [] := by
  decide

/-- C2 as amended. With identity absent, List answers 401 with no
filesystem call; Get and Delete answer 401 with no filesystem call for
every name free of the two-dot sequence (names containing it are
rejected 400 first); for Put, when the multer write succeeds the request
is answered 401 but the file has already been written to the joined
store path before the identity check, and when the write fails the
middleware answers 500 with no file created and the handler (and its
identity check) never running. -/
theorem C2_identity_gate (root : StorePath) (fs : FsState)
    (cert : Option PeerCert) (fname : String) (t : Nat) (o : String)
    (uOk wOk : Bool) (hid : hasIdentity cert = false) :
    (listRoute root cert fs).status = 401 ∧
    (listRoute root cert fs).events = [] ∧
    (hasDotDot fname = false →
      (downloadRoute root fname cert fs).status = 401 ∧
      (downloadRoute root fname cert fs).events = []) ∧
    (hasDotDot fname = false →
      (deleteRoute root fname cert fs uOk).status = 401 ∧
      (deleteRoute root fname cert fs uOk).events = []) ∧
    (multerWriteOk fs (joinPath root (uploadFilename t o)) wOk = true →
      (uploadRoute root cert (some (t, o)) fs wOk).status = 401 ∧
      (uploadRoute root cert (some (t, o)) fs wOk).events =
        [FsEvent.write (joinPath root (uploadFilename t o))]) ∧
    (multerWriteOk fs (joinPath root (uploadFilename t o)) wOk = false →
      (uploadRoute root cert (some (t, o)) fs wOk).status = 500 ∧
      (uploadRoute root cert (some (t, o)) fs wOk).events = []) := by
  cases cert with
  | none =>
    refine ⟨rfl, rfl, fun h => ?_, fun h => ?_, fun hw => ?_, fun hw => ?_⟩
    · constructor <;> simp [downloadRoute, h]
    · constructor <;> simp [deleteRoute, h]
    · constructor <;> simp [uploadRoute, hw]
    · constructor <;> simp [uploadRoute, hw]
  | some c =>
    cases hs : c.subject with
    | some s => simp [hasIdentity, hs] at hid
    | none =>
      refine ⟨?_, ?_, fun h => ?_, fun h => ?_, fun hw => ?_, fun hw => ?_⟩
      · simp [listRoute, hs]
      · simp [listRoute, hs]
      · constructor <;> simp [downloadRoute, h, hs]
      · constructor <;> simp [deleteRoute, h, hs]
      · constructor <;> simp [uploadRoute, hw, hs]
      · constructor <;> simp [uploadRoute, hw, hs]

/-- Witness for the amended C2 with no certificate presented. -/
theorem C2_identity_gate_witness :
    (listRoute rootU none fsRootOnly).status = 401 ∧
    (listRoute rootU none fsRootOnly).events = [] ∧
    (hasDotDot "a" = false →
      (downloadRoute rootU "a" none fsRootOnly).status = 401 ∧
      (downloadRoute rootU "a" none fsRootOnly).events = []) ∧
    (hasDotDot "a" = false →
      (deleteRoute rootU "a" none fsRootOnly true).status = 401 ∧
      (deleteRoute rootU "a" none fsRootOnly true).events = []) ∧
    (multerWriteOk fsRootOnly (joinPath rootU (uploadFilename 5 "x")) true = true →
      (uploadRoute rootU none (some (5, "x")) fsRootOnly true).status = 401 ∧
      (uploadRoute rootU none (some (5, "x")) fsRootOnly true).events =
        [FsEvent.write (joinPath rootU (uploadFilename 5 "x"))]) ∧
    (multerWriteOk fsRootOnly (joinPath rootU (uploadFilename 5 "x")) true = false →
      (uploadRoute rootU none (some (5, "x")) fsRootOnly true).status = 500 ∧
      (uploadRoute rootU none (some (5, "x")) fsRootOnly true).events = []) :=
  C2_identity_gate rootU fsRootOnly none "a" 5 "x" true true (by decide)

/-- C5 counterexample. An unauthenticated Delete is a terminal
Rejected(Unauthorized) outcome, yet it produces zero log records of any
kind — not exactly one AuditRecord. -/
theorem C5_counterexample :
    (deleteRoute rootU "a.txt" none fsRootOnly true).status = 401 ∧
    (deleteRoute rootU "a.txt" none fsRootOnly true).audits = [] ∧
    (deleteRoute rootU "a.txt" none fsRootOnly true).errors = [] := by
  decide

/-- C5 as amended. Each request emits at most one audit record, and
exactly one precisely on the success paths: an authenticated upload
whose multer write succeeded, a list whose directory read succeeds, a
download whose target exists (even when the subsequent stream fails),
and a delete whose unlink succeeds. All rejected paths (400, 401, 404)
emit zero audit records; the upload write-failure path (middleware
error, 500, handler skipped) emits zero records of any kind; and every
emitted record carries a non-empty operation tag. -/
theorem C5_audit_on_success_only (root : StorePath) (fs : FsState)
    (cert : Option PeerCert) (fname : String) (t : Nat) (o : String)
    (uOk wOk : Bool) :
    (uploadRoute root cert none fs wOk).audits = [] ∧
    (uploadRoute root cert (some (t, o)) fs wOk).audits.length =
      (if multerWriteOk fs (joinPath root (uploadFilename t o)) wOk = true ∧
          hasIdentity cert = true then 1 else 0) ∧
    (uploadRoute root cert (some (t, o)) fs wOk).errors = [] ∧
    (listRoute root cert fs).audits.length =
      (if hasIdentity cert = true ∧ fs root = some Entry.dir then 1 else 0) ∧
    (downloadRoute root fname cert fs).audits.length =
      (if hasDotDot fname = false ∧ hasIdentity cert = true ∧
          existsSync fs (joinPath root fname) = true then 1 else 0) ∧
    (deleteRoute root fname cert fs uOk).audits.length =
      (if hasDotDot fname = false ∧ hasIdentity cert = true ∧
          existsSync fs (joinPath root fname) = true ∧ uOk = true then 1 else 0) ∧
    (uploadRoute root cert (some (t, o)) fs wOk).audits.all
      (fun a => a.operation != "") = true ∧
    (listRoute root cert fs).audits.all (fun a => a.operation != "") = true ∧
    (downloadRoute root fname cert fs).audits.all
      (fun a => a.operation != "") = true ∧
    (deleteRoute root fname cert fs uOk).audits.all
      (fun a => a.operation != "") = true := by
  have hup : (uploadRoute root cert (some (t, o)) fs wOk).audits.length =
      (if multerWriteOk fs (joinPath root (uploadFilename t o)) wOk = true ∧
          hasIdentity cert = true then 1 else 0) := by
    rcases Bool.eq_false_or_eq_true
        (multerWriteOk fs (joinPath root (uploadFilename t o)) wOk) with hw | hw
    · cases cert with
      | none => simp [uploadRoute, hasIdentity, hw]
      | some c =>
        cases hs : c.subject with
        | none => simp [uploadRoute, hasIdentity, hw, hs]
        | some s => simp [uploadRoute, hasIdentity, hw, hs]
    · simp [uploadRoute, hw]
  have herr : (uploadRoute root cert (some (t, o)) fs wOk).errors = [] := by
    rcases Bool.eq_false_or_eq_true
        (multerWriteOk fs (joinPath root (uploadFilename t o)) wOk) with hw | hw
    · cases cert with
      | none => simp [uploadRoute, hw]
      | some c =>
        cases hs : c.subject with
        | none => simp [uploadRoute, hw, hs]
        | some s => simp [uploadRoute, hw, hs]
    · simp [uploadRoute, hw]
  refine ⟨rfl, hup, herr, ?_, ?_, ?_, ?_, ?_, ?_, ?_⟩
  · cases cert with
    | none => simp [listRoute, hasIdentity]
    | some c =>
      cases hs : c.subject with
      | none => simp [listRoute, hasIdentity, hs]
      | some s =>
        by_cases hd : fs root = some Entry.dir
        · simp [listRoute, hasIdentity, hs, hd]
        · simp [listRoute, hasIdentity, hs, hd]
  · rcases Bool.eq_false_or_eq_true (hasDotDot fname) with hdd | hdd
    · simp [downloadRoute, hdd]
    · cases cert with
      | none => simp [downloadRoute, hdd, hasIdentity]
      | some c =>
        cases hs : c.subject with
        | none => simp [downloadRoute, hdd, hasIdentity, hs]
        | some s =>
          cases he : fs (joinPath root fname) with
          | none => simp [downloadRoute, hdd, hasIdentity, hs, he, existsSync]
          | some e =>
            cases e <;> simp [downloadRoute, hdd, hasIdentity, hs, he, existsSync]
  · rcases Bool.eq_false_or_eq_true (hasDotDot fname) with hdd | hdd
    · simp [deleteRoute, hdd]
    · cases cert with
      | none => simp [deleteRoute, hdd, hasIdentity]
      | some c =>
        cases hs : c.subject with
        | none => simp [deleteRoute, hdd, hasIdentity, hs]
        | some s =>
          cases he : fs (joinPath root fname) with
          | none => simp [deleteRoute, hdd, hasIdentity, hs, he, existsSync]
          | some e =>
            cases uOk <;> simp [deleteRoute, hdd, hasIdentity, hs, he, existsSync]
  · rcases Bool.eq_false_or_eq_true
        (multerWriteOk fs (joinPath root (uploadFilename t o)) wOk) with hw | hw
    · cases cert with
      | none => simp [uploadRoute, hw]
      | some c =>
        cases hs : c.subject with
        | none => simp [uploadRoute, hw, hs]
        | some s => simp [uploadRoute, hw, hs]
    · simp [uploadRoute, hw]
  · cases cert with
    | none => simp [listRoute]
    | some c =>
      cases hs : c.subject with
      | none => simp [listRoute, hs]
      | some s =>
        by_cases hd : fs root = some Entry.dir <;> simp [listRoute, hs, hd]
  · rcases Bool.eq_false_or_eq_true (hasDotDot fname) with hdd | hdd
    · simp [downloadRoute, hdd]
    · cases cert with
      | none => simp [downloadRoute, hdd]
      | some c =>
        cases hs : c.subject with
        | none => simp [downloadRoute, hdd, hs]
        | some s =>
          cases he : fs (joinPath root fname) with
          | none => simp [downloadRoute, hdd, hs, he]
          | some e => cases e <;> simp [downloadRoute, hdd, hs, he]
  · rcases Bool.eq_false_or_eq_true (hasDotDot fname) with hdd | hdd
    · simp [deleteRoute, hdd]
    · cases cert with
      | none => simp [deleteRoute, hdd]
      | some c =>
        cases hs : c.subject with
        | none => simp [deleteRoute, hdd, hs]
        | some s =>
          cases he : fs (joinPath root fname) with
          | none => simp [deleteRoute, hdd, hs, he, existsSync]
          | some e => cases uOk <;> simp [deleteRoute, hdd, hs, he, existsSync]

/-- C7 counterexample. For a certificate whose subject carries no CN,
the Put operation attaches the identifier `Unknown Client`, but the Get
operation attaches the raw template rendering `undefined`: the
`Unknown Client` defaulting does not apply to every operation. -/
theorem C7_counterexample :
    (extractIdentity certNoCN).present = true ∧
    (extractIdentity certNoCN).commonName = "Unknown Client" ∧
    (uploadRoute rootU certNoCN (some (5, "x")) fsRootOnly true).audits =
      [⟨"UPLOAD", "Unknown Client", ""⟩] ∧
    (downloadRoute rootU "a" certNoCN fsFileA).audits =
      [⟨"DOWNLOAD", "undefined", "a"⟩] ∧
    ("undefined" : String) ≠ "Unknown Client" := by
  decide

/-- C7 as amended. Identity extraction is total (no error path):
presence holds exactly when a certificate with a subject was presented;
when present, the extracted common name is the subject CN, with the
`Unknown Client` defaulting for an absent or empty CN applying to the
upload-route pattern the extractor embeds — the list, download and
delete log lines instead interpolate the raw CN field. -/
theorem C7_identity_extraction (cert : Option PeerCert) :
    (extractIdentity cert).present = hasIdentity cert ∧
    ((extractIdentity cert).present = false ↔
      cert = none ∨ cert = some ⟨none⟩) ∧
    (∀ s : CertSubject, cert = some ⟨some s⟩ →
      (extractIdentity cert).commonName = uploadIdentifier s ∧
      (s.CN = none ∨ s.CN = some "" →
        (extractIdentity cert).commonName = "Unknown Client") ∧
      (∀ n : String, s.CN = some n → n ≠ "" →
        (extractIdentity cert).commonName = n)) := by
  refine ⟨?_, ?_, ?_⟩
  · cases cert with
    | none => rfl
    | some c =>
      cases c with
      | mk sub => cases sub <;> rfl
  · cases cert with
    | none => simp [extractIdentity]
    | some c =>
      cases c with
      | mk sub =>
        cases sub with
        | none => simp [extractIdentity]
        | some s => simp [extractIdentity]
  · intro s hc
    subst hc
    refine ⟨rfl, ?_, ?_⟩
    · intro h
      rcases h with h | h <;> simp [extractIdentity, uploadIdentifier, h]
    · intro n hn hne
      simp [extractIdentity, uploadIdentifier, hn, hne]

/-- Witness for the amended C7: a present CN is extracted verbatim. -/
theorem C7_identity_extraction_witness :
    (extractIdentity certA).commonName = "client-a" :=
  ((C7_identity_extraction certA).2.2 ⟨some "client-a"⟩ rfl).2.2
    "client-a" rfl (by decide)

/-- C8 counterexample. With a subdirectory `/u/d` present, the
authenticated download of `d` finds no regular file there, yet does not
answer NotFound: `existsSync` is true for the directory, the download is
attempted, and it fails with 500. -/
theorem C8_counterexample :
    (downloadRoute rootU "d" certA fsDirD).status = 500 ∧
    (downloadRoute rootU "d" certA fsDirD).status ≠ 404 ∧
    fsDirD (joinPath rootU "d") ≠ some Entry.file := by
  decide

/-- C8 as amended. For an authenticated caller and a sanitized name,
Get answers NotFound exactly when no entry of any kind exists at the
joined path; when a regular file exists it is streamed with 200; when a
directory exists the download is attempted and fails with 500. -/
theorem C8_get_notfound_iff (root : StorePath) (fname : String)
    (cert : Option PeerCert) (fs : FsState)
    (hid : hasIdentity cert = true) (hdd : hasDotDot fname = false) :
    ((downloadRoute root fname cert fs).status = 404 ↔
      fs (joinPath root fname) = none) ∧
    (fs (joinPath root fname) = some Entry.file →
      (downloadRoute root fname cert fs).status = 200 ∧
      FsEvent.readFile (joinPath root fname) ∈
        (downloadRoute root fname cert fs).events) ∧
    (fs (joinPath root fname) = some Entry.dir →
      (downloadRoute root fname cert fs).status = 500) := by
  cases cert with
  | none => simp [hasIdentity] at hid
  | some c =>
    cases hs : c.subject with
    | none => simp [hasIdentity, hs] at hid
    | some s =>
      cases he : fs (joinPath root fname) with
      | none => simp [downloadRoute, hdd, hs, he]
      | some e => cases e <;> simp [downloadRoute, hdd, hs, he]

/-- Witness for the amended C8 at an existing regular file. -/
theorem C8_get_notfound_iff_witness :
    ((downloadRoute rootU "a" certA fsFileA).status = 404 ↔
      fsFileA (joinPath rootU "a") = none) ∧
    (fsFileA (joinPath rootU "a") = some Entry.file →
      (downloadRoute rootU "a" certA fsFileA).status = 200 ∧
      FsEvent.readFile (joinPath rootU "a") ∈
        (downloadRoute rootU "a" certA fsFileA).events) ∧
    (fsFileA (joinPath rootU "a") = some Entry.dir →
      (downloadRoute rootU "a" certA fsFileA).status = 500) :=
  C8_get_notfound_iff rootU "a" certA fsFileA (by decide) (by decide)
